import Mathlib

/-!
Verification of the voice-authentication subsystem
(`security/auth.py`, class `VoiceAuthenticator`).

The Python module is shallowly embedded: pure computations become Lean
functions over `ℚ` (Python floats are modelled by rationals; the one place
where IEEE NaN semantics matters — feature extraction on silent audio — uses
a dedicated value type `FVal` with an explicit `nan`), interactive input
(microphone captures, typed PINs, typed answers) becomes explicit argument
lists, and the mutable session / file-system state becomes explicit state
passing over `AuthState` and `FileStore`.  Opaque third-party computations
(the fitted Gaussian-mixture scorer, `np.sqrt`, the FFT block) are
universally-quantified function parameters, so every theorem holds for every
possible behaviour of those collaborators.
-/

namespace LisaAuth

/-- Feature vectors (`np.ndarray` of floats) are modelled as lists of `ℚ`. -/
abbrev FV := List ℚ

/-- `self.min_samples = 5` (configuration in `VoiceAuthenticator.__init__`). -/
def min_samples : ℕ := 5

/-- `self.max_auth_attempts = 3`. -/
def max_auth_attempts : ℕ := 3

/-- `self.auth_threshold = 0.6`. -/
def auth_threshold : ℚ := 6/10

/-- The confidence mapping in `authenticate_with_features`:
`confidence = min(max((log_prob + 100) / 200, 0.0), 1.0)`. -/
def confidence_of (log_prob : ℚ) : ℚ :=
  min (max ((log_prob + 100) / 200) 0) 1

/-- `authenticate_with_features(features)`.  The fitted GMM is opaque, so its
`score_samples` method is passed as a function `FV → ℚ`; `gmm_model is None`
is modelled by `Option`.  Returns `(is_authenticated, confidence)`; the
untrained / model-less early exit returns `(False, 0.0)` as in the source. -/
def authenticate_with_features (is_trained : Bool) (gmm_model : Option (FV → ℚ))
    (features : FV) : Bool × ℚ :=
  match is_trained, gmm_model with
  | true, some score_samples =>
      let log_prob := score_samples features
      let confidence := confidence_of log_prob
      (decide (auth_threshold ≤ confidence), confidence)
  | _, _ => (false, 0)

/-- Outcome of `_train_model`: the `False` return for too few samples is the
spec's `InsufficientSamples`; otherwise the fitted component count and the
boolean returned by the self-validation (`train_accuracy > 0.7`). -/
inductive TrainResult where
  | insufficientSamples
  | fitted (n_components : ℕ) (success : Bool)
deriving DecidableEq

/-- `_train_model()`.  The vectors are the features of `self.voice_samples`.
Fitting `GaussianMixture(n_components, ...)` and scoring the training data is
opaque, so it is abstracted as `fit : n_components → training set → scorer`;
everything else follows the source: the `< min_samples` guard, the component
count `min(3, len // 2)`, and the validation
`np.mean(train_scores > -50) > 0.7`. -/
def train_model (fit : ℕ → List FV → FV → ℚ) (vectors : List FV) : TrainResult :=
  if vectors.length < min_samples then .insufficientSamples
  else
    let n_components := min 3 (vectors.length / 2)
    let train_scores := vectors.map (fit n_components vectors)
    let train_accuracy : ℚ :=
      ((train_scores.countP fun s => decide ((-50 : ℚ) < s)) : ℚ) / vectors.length
    .fitted n_components (decide ((7 : ℚ)/10 < train_accuracy))

/-- The process-wide auth-session state: `self.failed_attempts` and
`self.locked_until` (a `time.time()` deadline, modelled as `ℚ`). -/
structure AuthState where
  failed_attempts : ℕ
  locked_until : ℚ
deriving DecidableEq

/-- One iteration of `verify_live`'s loop as seen from the environment:
either no speech was captured (`sr.WaitTimeoutError` / any exception), or a
sample was captured, its features extracted and scored, giving the pair
returned by `authenticate_with_features`. -/
inductive Attempt where
  | noSpeech
  | scored (ok : Bool) (conf : ℚ)
deriving DecidableEq

/-- Result of a `verify_live` call: the returned `(bool, confidence)` pair,
the session state after the call, and the number of capture attempts
(microphone listens) the call performed. -/
structure VerifyResult where
  ok : Bool
  conf : ℚ
  state : AuthState
  captures : ℕ
deriving DecidableEq

/-- The `for attempt in range(max_attempts)` loop of `verify_live`.  `now` is
the single `time.time()` value of the call, `fuel` the remaining attempts,
`ins` the environment's responses.  Success resets `failed_attempts` to 0 and
returns; a failed score increments it, and reaching `max_auth_attempts` calls
`_lock_auth(300)` (deadline `now + 300`) and returns `(False, confidence)`;
falling out of the loop returns `(False, 0.0)`. -/
def verifyLoop (now : ℚ) (fuel : ℕ) (ins : List Attempt) (st : AuthState)
    (caps : ℕ) : VerifyResult :=
  match fuel with
  | 0 => ⟨false, 0, st, caps⟩
  | fuel' + 1 =>
    match ins.headD .noSpeech with
    | .noSpeech => verifyLoop now fuel' ins.tail st (caps + 1)
    | .scored true conf => ⟨true, conf, ⟨0, st.locked_until⟩, caps + 1⟩
    | .scored false conf =>
      let f := st.failed_attempts + 1
      if max_auth_attempts ≤ f then ⟨false, conf, ⟨f, now + 300⟩, caps + 1⟩
      else verifyLoop now fuel' ins.tail ⟨f, st.locked_until⟩ (caps + 1)

/-- `verify_live(max_attempts)`: the `_is_locked()` guard
(`time.time() < self.locked_until`) returns `(False, 0.0)` immediately with
no capture attempt; otherwise the attempt loop runs. -/
def verify_live (now : ℚ) (max_attempts : ℕ) (ins : List Attempt)
    (st : AuthState) : VerifyResult :=
  if now < st.locked_until then ⟨false, 0, st, 0⟩
  else verifyLoop now max_attempts ins st 0

/-- `hashlib.sha256(pin.encode()).hexdigest() == stored_hash` where the
stored hash may be `None` (Python's `str == None` is `False`).  The digest
function itself is opaque and passed as `H`. -/
def pinMatches (H : String → String) (stored : Option String) (pin : String) : Bool :=
  match stored with
  | some h => decide (H pin = h)
  | none => false

/-- The `for attempt in range(max_auth_attempts)` loop of
`authenticate_with_pin`: a correct PIN resets `failed_attempts` and succeeds;
each wrong PIN increments it. -/
def pinLoop (H : String → String) (stored : Option String) (fuel : ℕ)
    (ins : List String) (st : AuthState) : Bool × AuthState :=
  match fuel with
  | 0 => (false, st)
  | fuel' + 1 =>
    if pinMatches H stored (ins.headD "") then (true, ⟨0, st.locked_until⟩)
    else pinLoop H stored fuel' ins.tail ⟨st.failed_attempts + 1, st.locked_until⟩

/-- `authenticate_with_pin()`: the `_is_locked()` guard fails immediately;
otherwise up to `max_auth_attempts` tries, and exhausting them calls
`_lock_auth(600)` (deadline `now + 600`) before returning `False`. -/
def authenticate_with_pin (H : String → String) (now : ℚ) (stored : Option String)
    (ins : List String) (st : AuthState) : Bool × AuthState :=
  if now < st.locked_until then (false, st)
  else
    match pinLoop H stored max_auth_attempts ins st with
    | (true, st') => (true, st')
    | (false, st') => (false, ⟨st'.failed_attempts, now + 600⟩)

/-- Contents of `data/auth/pin.hash`: a JSON read that raises is `corrupt`
(the gate's bare `except` returns `False`); a parse yields
`pin_data.get("pin_hash")`, which may be missing (`None`). -/
inductive PinFile where
  | corrupt
  | parsed (pin_hash : Option String)
deriving DecidableEq

/-- The pickled bundle `save_model` writes to
`data/models/voice_auth_model.pkl`.  The GMM parameters and the retained
`voice_samples` payloads are opaque blobs that no claim inspects, so the
bundle keeps the fields the claims read: `is_trained`, `auth_method` (its
`.value` string) and `pin_hash`. -/
structure ModelBundle where
  is_trained : Bool
  auth_method : String
  pin_hash : Option String
deriving DecidableEq

/-- The three independently present/absent authentication artifacts:
`data/models/voice_auth_model.pkl`, `data/auth/pin.hash`, and the
`data/voice_samples` directory. -/
structure FileStore where
  modelFile : Option ModelBundle
  pinFile : Option PinFile
  samplesDir : Bool
deriving DecidableEq

/-- `save_model()`: writes the pickled bundle (happy path — the broad
`except` on an OS error is not modelled) and returns `True`.  It touches only
the model file. -/
def save_model (is_trained : Bool) (auth_method : String) (pin_hash : Option String)
    (fs : FileStore) : Bool × FileStore :=
  (true, { fs with modelFile := some ⟨is_trained, auth_method, pin_hash⟩ })

/-- `_setup_pin_backup()`: the interactive loop runs until a valid 4–6 digit
PIN is entered twice; `pin` is that accepted PIN.  The stored artifact is
`{"pin_hash": sha256(pin).hexdigest()}` — the digest of the bare PIN, no
salt.  Only the PIN file is written.  (The Python function returns `None`.) -/
def setup_pin_backup (H : String → String) (pin : String) (fs : FileStore) : FileStore :=
  { fs with pinFile := some (.parsed (some (H pin))) }

/-- A salted digest as the spec's words require ("one-way salted digest"):
the hash of a salt prepended to the PIN.  Used only to compare against the
source's unsalted storage. -/
def saltedDigest (H : String → String) (salt pin : String) : String :=
  H (salt ++ pin)

/-- The `for attempt in range(3)` PIN loop of `_verify_pin_for_re_enrollment`
(pure check; the deletions happen in the caller branch). -/
def reenrollPinLoop (H : String → String) (stored : Option String) (fuel : ℕ)
    (ins : List String) : Bool :=
  match fuel with
  | 0 => false
  | fuel' + 1 =>
    if pinMatches H stored (ins.headD "") then true
    else reenrollPinLoop H stored fuel' ins.tail

/-- `_verify_pin_for_re_enrollment()`.  No PIN file: the source runs
`return self._setup_pin_backup()`, which returns `None` — falsy at the call
site — after writing the new PIN; unreadable PIN file: `False`; otherwise
three tries, and only a matching PIN deletes the model file and the samples
directory before returning `True`. -/
def verify_pin_for_re_enrollment (H : String → String) (newPin : String)
    (ins : List String) (fs : FileStore) : Bool × FileStore :=
  match fs.pinFile with
  | none => (false, setup_pin_backup H newPin fs)
  | some .corrupt => (false, fs)
  | some (.parsed stored) =>
    if reenrollPinLoop H stored max_auth_attempts ins then
      (true, { fs with modelFile := none, samplesDir := false })
    else (false, fs)

/-- Python `str.lower()` (per-character, as on the ASCII strings involved),
modelled on the character list of the string. -/
def lowerChars (l : List Char) : List Char := l.map Char.toLower

/-- Python `str.strip()`: drop whitespace from both ends. -/
def stripChars (l : List Char) : List Char :=
  ((l.dropWhile Char.isWhitespace).reverse.dropWhile Char.isWhitespace).reverse

/-- The fixed `security_questions` dict of `emergency_pin_reset`
(question, expected answer), in insertion order. -/
def security_questions : List (String × String) :=
  [("What is your birth city?", "aurangabad"),
   ("What was your first pet's name?", "browny"),
   ("What is your mother's name?", "gudiya")]

/-- The grading loop of `emergency_pin_reset`: the i-th typed answer is
`.strip().lower()`-ed and compared with `answer.lower()`. -/
def gradeAnswers : List (String × String) → List String → ℕ
  | [], _ => 0
  | (_, answer) :: qs, ans =>
    (if lowerChars (stripChars (ans.headD "").toList) = lowerChars answer.toList
     then 1 else 0)
      + gradeAnswers qs ans.tail

/-- `emergency_pin_reset()`: `correct_answers >= total_questions - 1` deletes
all three artifacts (each `unlink`/`rmtree` is guarded by `exists`, so the
result is the empty store) and returns `True`; otherwise returns `False`
touching nothing.  The function never reads or writes `failed_attempts` or
`locked_until`, so the session state passes through unchanged. -/
def emergency_pin_reset (answers : List String) (st : AuthState) (fs : FileStore) :
    Bool × AuthState × FileStore :=
  let correct := gradeAnswers security_questions answers
  if security_questions.length - 1 ≤ correct then (true, st, ⟨none, none, false⟩)
  else (false, st, fs)

/-- One enrollment prompt's outcome in `enroll_user`: the recording failed
(`WaitTimeoutError` / exception → `continue`), or audio of `rawLen` raw
int16 samples was captured and its features extracted. -/
inductive Capture where
  | failed
  | audio (rawLen : ℕ) (features : FV)
deriving DecidableEq

/-- The fixed `phrases` list of `enroll_user`. -/
def phrases : List String :=
  ["My voice is my password",
   "Hello Lisa, authenticate me",
   "Only I control this system",
   "Voice recognition security",
   "Personal assistant access",
   "Secure my computer with voice",
   "Biometric voice authentication",
   "Lisa, remember my voice"]

/-- The sample-collection loop of `enroll_user`: one prompt per
`range(min(num_samples, len(phrases)))` iteration, discarding failed
captures and any capture with `len(audio_array) < 8000`. -/
def goodSamples (recordings : List Capture) : List FV :=
  recordings.filterMap fun c =>
    match c with
    | .failed => none
    | .audio rawLen features => if rawLen < 8000 then none else some features

/-- `enroll_user(num_samples=8)` after the recording loop: needs
`recorded_count >= min_samples`; then `_train_model()`; on training success
`save_model()` (which stores `is_trained = True` with the session's current
`auth_method` string and `pin_hash`), then one live self-test
`verify_live()` (default budget 2); only a passing self-test runs
`_setup_pin_backup()` and reports `True`. -/
def enroll_user (fit : ℕ → List FV → FV → ℚ) (H : String → String) (now : ℚ)
    (num_samples : ℕ) (recordings : List Capture) (verifyIns : List Attempt)
    (newPin : String) (auth_method : String) (pin_hash : Option String)
    (st : AuthState) (fs : FileStore) : Bool × AuthState × FileStore :=
  let collected := goodSamples (recordings.take (min num_samples phrases.length))
  if collected.length < min_samples then (false, st, fs)
  else
    match train_model fit collected with
    | .insufficientSamples => (false, st, fs)
    | .fitted _ false => (false, st, fs)
    | .fitted _ true =>
      let saved := save_model true auth_method pin_hash fs
      if saved.1 then
        let r := verify_live now 2 verifyIns st
        if r.ok then (true, r.state, setup_pin_backup H newPin saved.2)
        else (false, r.state, saved.2)
      else (false, st, saved.2)

/-- A float value in the feature extractor: a finite rational or IEEE NaN.
`np.float32` arithmetic on the silent-input path needs exactly the NaN
cases: `0.0 / 0.0` is NaN, and NaN propagates through `+ - * /`, `abs`
and `maximum`. -/
inductive FVal where
  | fin (q : ℚ)
  | nan
deriving DecidableEq

namespace FVal

def add : FVal → FVal → FVal
  | fin a, fin b => fin (a + b)
  | _, _ => nan

def sub : FVal → FVal → FVal
  | fin a, fin b => fin (a - b)
  | _, _ => nan

def mul : FVal → FVal → FVal
  | fin a, fin b => fin (a * b)
  | _, _ => nan

/-- IEEE division restricted to the uses in `_extract_features`: every
division there is by `np.max(np.abs(audio))` or by a length, and the
silent-input case is `0.0 / 0.0 = NaN`.  (A nonzero numerator over zero,
IEEE ±inf, is also collapsed to `nan`; that case is never exercised, since a
zero maximum absolute value forces every numerator to zero.) -/
def div : FVal → FVal → FVal
  | fin a, fin b => if b = 0 then nan else fin (a / b)
  | _, _ => nan

def absF : FVal → FVal
  | fin a => fin |a|
  | nan => nan

/-- `np.maximum`: NaN-propagating binary max. -/
def maxF : FVal → FVal → FVal
  | fin a, fin b => fin (max a b)
  | _, _ => nan

end FVal

/-- `np.sum` / reduction with `+` over a float array. -/
def listSum (l : List FVal) : FVal := l.foldl FVal.add (.fin 0)

/-- `np.max` of a (nonempty) float array; empty arrays raise in numpy and
are mapped to NaN here. -/
def listMax : List FVal → FVal
  | [] => .nan
  | x :: xs => xs.foldl FVal.maxF x

/-- `np.mean`: sum over length. -/
def meanF (l : List FVal) : FVal := (listSum l).div (.fin l.length)

/-- The normalization step of `_extract_features`:
`audio = audio / np.max(np.abs(audio))`. -/
def normalize (audio : List FVal) : List FVal :=
  let m := listMax (audio.map FVal.absF)
  audio.map fun x => x.div m

/-- `_extract_features(audio_data, sample_rate)`.  Raw int16 samples are cast
to float, normalized, and the six time-domain features are computed exactly
as in the source (`np.std` is the square root of the mean squared deviation,
RMS the square root of the mean square).  `sq` abstracts `np.sqrt` and
`spectral` abstracts the FFT block of lines 401–409 (three band means and
the normalized argmax index), both opaque numerics; the theorems quantify
over them, and the guard `len(audio) > 0` on the spectral block is kept. -/
def extract_features (sq : FVal → FVal) (spectral : List FVal → List FVal)
    (audio_data : List ℤ) (sample_rate : ℚ) : List FVal :=
  let audio := normalize (audio_data.map fun z => FVal.fin (z : ℚ))
  let mu := meanF audio
  let features : List FVal :=
    [meanF (audio.map FVal.absF),
     sq (meanF (audio.map fun x => (x.sub mu).mul (x.sub mu))),
     sq (meanF (audio.map fun x => x.mul x)),
     listMax (audio.map FVal.absF),
     .fin ((audio_data.length : ℚ) / sample_rate),
     (listSum (audio.map fun x => x.mul x)).div (.fin audio_data.length)]
  features ++ (if 0 < audio.length then spectral audio else [])

/-- The `AuthMethod` enum. -/
inductive AuthMethod where
  | voice
  | pin
  | both
  | none
deriving DecidableEq

/-- `self.secure_commands`. -/
def secure_commands : List String :=
  ["shutdown", "restart", "lock", "sleep",
   "security level", "panic", "emergency",
   "format", "delete", "encrypt", "decrypt"]

/-- `requires_authentication(command)`: some secure command is a substring
of the lowercased command. -/
def requires_authentication (command : String) : Bool :=
  secure_commands.any fun sc => decide (sc.toList <:+: lowerChars command.toList)

/-- `authenticate_command(command)`.  Non-secure commands pass.  Otherwise
the configured method dispatches: voice → `verify_live()[0]`, pin →
`authenticate_with_pin()`, both → the user's typed choice ("1" voice,
"2" pin, anything else `False`).  `AuthMethod.NONE` matches no branch and
falls through to the final `return False`.  The verification sub-flows are
passed in as their results. -/
def authenticate_command (method : AuthMethod) (command : String)
    (voiceResult : Bool × ℚ) (pinResult : Bool) (choice : String) : Bool :=
  if requires_authentication command = false then true
  else
    match method with
    | .voice => voiceResult.1
    | .pin => pinResult
    | .both =>
      if choice = "1" then voiceResult.1
      else if choice = "2" then pinResult
      else false
    | .none => false

/-- A concrete injective stand-in for the SHA-256 hex digest, used by
closed witness statements (only injectivity of the digest is relevant). -/
def H0 : String → String := fun s => "#" ++ s

/-- A concrete stand-in for a fitted scorer, used by closed witness
statements: every vector scores log-likelihood 0. -/
def constFit : ℕ → List FV → FV → ℚ := fun _ _ _ => 0

/-! ## Theorems -/

/-- C1: For every feature vector scored against a trained model, the
confidence returned equals `clamp((L+100)/200, 0, 1)` where `L` is the
model's raw log-likelihood for that vector (so `L = -100` gives `0.0`,
`L = 100` gives `1.0`, `L = -50` gives `0.25`), and the authentication
decision is true exactly when that confidence is `≥ 0.6`. -/
theorem C1_confidence_mapping_and_decision (score_samples : FV → ℚ) (features : FV) :
    (authenticate_with_features true (some score_samples) features).2
        = min (max ((score_samples features + 100) / 200) 0) 1
    ∧ ((authenticate_with_features true (some score_samples) features).1 = true
        ↔ (6 : ℚ)/10 ≤ (authenticate_with_features true (some score_samples) features).2)
    ∧ confidence_of (-100) = 0 ∧ confidence_of 100 = 1 ∧ confidence_of (-50) = 1/4 := by
  refine ⟨rfl, ?_, ?_, ?_, ?_⟩
  · simp [authenticate_with_features, auth_threshold]
  · norm_num [confidence_of]
  · norm_num [confidence_of]
  · norm_num [confidence_of]

/-- C3: `train` fails with `InsufficientSamples` for every input list of
fewer than 5 feature vectors; for lists of 5 or more it fits a mixture
model with component count `min(3, ⌊len/2⌋)`, and reports success exactly
when the fraction of training vectors whose log-likelihood under the fitted
model exceeds the floor −50 is strictly greater than 0.7.  The statement
holds for every possible behaviour `fit` of the opaque mixture fitter. -/
theorem C3_training_contract (fit : ℕ → List FV → FV → ℚ) (vectors : List FV) :
    (vectors.length < 5 → train_model fit vectors = .insufficientSamples)
    ∧ (5 ≤ vectors.length →
        train_model fit vectors
          = .fitted (min 3 (vectors.length / 2))
              (decide ((7 : ℚ)/10 <
                (((vectors.map (fit (min 3 (vectors.length / 2)) vectors)).countP
                    fun s => decide ((-50 : ℚ) < s)) : ℚ) / vectors.length))) := by
  constructor
  · intro h
    simp [train_model, min_samples, h]
  · intro h
    simp [train_model, min_samples, Nat.not_lt.mpr h]

/-- Witness for C3 at concrete inputs: 4 vectors are rejected, 5 vectors are
fitted with `min(3, ⌊5/2⌋) = 2` components, and with a scorer giving
log-likelihood 0 everywhere the validated fraction is 1 > 0.7, so training
succeeds. -/
theorem C3_training_contract_witness :
    train_model constFit (List.replicate 4 ([] : FV)) = .insufficientSamples
    ∧ train_model constFit (List.replicate 5 ([] : FV)) = .fitted 2 true := by
  constructor
  · exact (C3_training_contract constFit (List.replicate 4 ([] : FV))).1 (by decide)
  · have h := (C3_training_contract constFit (List.replicate 5 ([] : FV))).2 (by decide)
    rw [h]
    have h5 : (((List.replicate 5 ([] : FV)).map
          (constFit (min 3 ((List.replicate 5 ([] : FV)).length / 2))
            (List.replicate 5 ([] : FV)))).countP
          fun s => decide ((-50 : ℚ) < s)) = 5 := by decide
    rw [h5]
    norm_num

/-- C4 (the code, at the failing input): on an all-silence input the
normalization divides `0.0` by `np.max(np.abs(audio)) = 0.0`, so every
normalized sample is NaN and the very first feature (the mean absolute
amplitude) is NaN — not the zero vector the spec requires.  The statement
quantifies over every behaviour of the opaque `np.sqrt` and FFT blocks. -/
theorem C4_silence_yields_nan (sq : FVal → FVal) (spectral : List FVal → List FVal) :
    (extract_features sq spectral [0, 0, 0, 0] 16000).headD (.fin 0) = FVal.nan := by
  have h : normalize ([(0 : ℤ), 0, 0, 0].map fun z => FVal.fin (z : ℚ))
      = [.nan, .nan, .nan, .nan] := by decide
  simp only [extract_features, h, List.cons_append, List.headD_cons]
  decide

/-- C10: if the configured method is `AuthMethod.NONE` ("skip
authentication"), `authenticate_command` denies every command that requires
authentication (the method matches no dispatch branch and the function falls
through to `return False`). -/
theorem C10_none_denies_secure_commands (command : String) (voiceResult : Bool × ℚ)
    (pinResult : Bool) (choice : String)
    (h : requires_authentication command = true) :
    authenticate_command .none command voiceResult pinResult choice = false := by
  simp [authenticate_command, h]

/-- Witness for C10: "shutdown laptop" contains the secure substring
"shutdown", and under `AuthMethod.NONE` it is denied. -/
theorem C10_none_denies_secure_commands_witness :
    requires_authentication "shutdown laptop" = true
    ∧ authenticate_command .none "shutdown laptop" (true, 1) true "1" = false :=
  ⟨by decide, C10_none_denies_secure_commands "shutdown laptop" (true, 1) true "1" (by decide)⟩

/-- Helper: once the attempt loop is entered below the lockout limit, the
only way the failed counter ends at or above the limit is via the lock
branch, which stamps the deadline `now + 300` and reports failure. -/
theorem verifyLoop_reach_limit (now : ℚ) (fuel : ℕ) (ins : List Attempt)
    (st : AuthState) (caps : ℕ)
    (hlt : st.failed_attempts < max_auth_attempts)
    (hge : max_auth_attempts ≤ (verifyLoop now fuel ins st caps).state.failed_attempts) :
    (verifyLoop now fuel ins st caps).state.locked_until = now + 300
    ∧ (verifyLoop now fuel ins st caps).ok = false := by
  induction fuel generalizing ins st caps with
  | zero =>
    simp only [verifyLoop] at hge
    omega
  | succ n ih =>
    cases ins with
    | nil =>
      simp only [verifyLoop, List.headD_nil, List.tail_nil] at hge ⊢
      exact ih _ _ _ hlt hge
    | cons a rest =>
      cases a with
      | noSpeech =>
        simp only [verifyLoop, List.headD_cons, List.tail_cons] at hge ⊢
        exact ih _ _ _ hlt hge
      | scored ok conf =>
        cases ok with
        | true => simp [verifyLoop, max_auth_attempts] at hge
        | false =>
          by_cases hf : max_auth_attempts ≤ st.failed_attempts + 1
          · simp [verifyLoop, hf]
          · simp only [verifyLoop, List.headD_cons, List.tail_cons, if_neg hf] at hge ⊢
            exact ih _ _ _ (by show st.failed_attempts + 1 < max_auth_attempts; omega) hge

/-- Helper: a successful loop exit resets the failed counter to zero. -/
theorem verifyLoop_ok_resets (now : ℚ) (fuel : ℕ) (ins : List Attempt)
    (st : AuthState) (caps : ℕ)
    (hok : (verifyLoop now fuel ins st caps).ok = true) :
    (verifyLoop now fuel ins st caps).state.failed_attempts = 0 := by
  induction fuel generalizing ins st caps with
  | zero => simp [verifyLoop] at hok
  | succ n ih =>
    cases ins with
    | nil =>
      simp only [verifyLoop, List.headD_nil, List.tail_nil] at hok ⊢
      exact ih _ _ _ hok
    | cons a rest =>
      cases a with
      | noSpeech =>
        simp only [verifyLoop, List.headD_cons, List.tail_cons] at hok ⊢
        exact ih _ _ _ hok
      | scored ok conf =>
        cases ok with
        | true => simp [verifyLoop]
        | false =>
          by_cases hf : max_auth_attempts ≤ st.failed_attempts + 1
          · simp [verifyLoop, hf] at hok
          · simp only [verifyLoop, List.headD_cons, List.tail_cons, if_neg hf] at hok ⊢
            exact ih _ _ _ hok

/-- Helper: the loop never lowers the lockout deadline (it either keeps it
or, when locking, replaces it by `now + 300` with the old deadline `≤ now`). -/
theorem verifyLoop_locked_mono (now : ℚ) (fuel : ℕ) (ins : List Attempt)
    (st : AuthState) (caps : ℕ) (hnow : st.locked_until ≤ now) :
    st.locked_until ≤ (verifyLoop now fuel ins st caps).state.locked_until := by
  induction fuel generalizing ins st caps with
  | zero => exact le_rfl
  | succ n ih =>
    cases ins with
    | nil =>
      simp only [verifyLoop, List.headD_nil, List.tail_nil]
      exact ih _ _ _ hnow
    | cons a rest =>
      cases a with
      | noSpeech =>
        simp only [verifyLoop, List.headD_cons, List.tail_cons]
        exact ih _ _ _ hnow
      | scored ok conf =>
        cases ok with
        | true => exact le_rfl
        | false =>
          by_cases hf : max_auth_attempts ≤ st.failed_attempts + 1
          · simp only [verifyLoop, List.headD_cons, if_pos hf]
            linarith
          · simp only [verifyLoop, List.headD_cons, List.tail_cons, if_neg hf]
            exact ih _ _ _ hnow

/-- C2: while the lockout deadline is in the future, `verify_live` fails
immediately with zero capture attempts and unchanged session state; and the
moment a failed attempt pushes the counter to the limit 3, the call stamps
the deadline `now + 300` (300 s in the future) and returns at once — the
result is independent of the remaining budget `fuel` and the remaining
environment inputs `rest`, i.e. no further attempts are made. -/
theorem C2_lockout_behavior (now : ℚ) (m : ℕ) (ins : List Attempt) (st : AuthState) :
    (now < st.locked_until → verify_live now m ins st = ⟨false, 0, st, 0⟩)
    ∧ (st.locked_until ≤ now → st.failed_attempts < 3 →
        3 ≤ (verify_live now m ins st).state.failed_attempts →
        (verify_live now m ins st).state.locked_until = now + 300
          ∧ (verify_live now m ins st).ok = false)
    ∧ (∀ (fuel caps : ℕ) (conf : ℚ) (rest : List Attempt) (st' : AuthState),
        3 ≤ st'.failed_attempts + 1 →
        verifyLoop now (fuel + 1) (.scored false conf :: rest) st' caps
          = ⟨false, conf, ⟨st'.failed_attempts + 1, now + 300⟩, caps + 1⟩) := by
  refine ⟨fun h => by simp [verify_live, h], fun hle hlt hge => ?_, ?_⟩
  · have hnl : ¬ now < st.locked_until := not_lt.mpr hle
    simp only [verify_live, if_neg hnl] at hge ⊢
    exact verifyLoop_reach_limit now m ins st 0 hlt hge
  · intro fuel caps conf rest st' hf
    simp only [verifyLoop, List.headD_cons, if_pos (show max_auth_attempts ≤ st'.failed_attempts + 1 from hf)]

/-- Witness for C2: a locked session (deadline 20, now 10) rejects without
consuming anything; a call entering with 2 failures and one more failed
score locks until `0 + 300`; and the loop lock-exit is immediate even with
budget left. -/
theorem C2_lockout_behavior_witness :
    verify_live 10 2 [] ⟨0, 20⟩ = ⟨false, 0, ⟨0, 20⟩, 0⟩
    ∧ ((verify_live 0 2 [.scored false (1/2)] ⟨2, 0⟩).state.locked_until = 0 + 300
        ∧ (verify_live 0 2 [.scored false (1/2)] ⟨2, 0⟩).ok = false)
    ∧ verifyLoop 5 (1 + 1) (.scored false (1/3) :: [.scored true 1]) ⟨2, 7⟩ 0
        = ⟨false, 1/3, ⟨2 + 1, 5 + 300⟩, 0 + 1⟩ := by
  refine ⟨(C2_lockout_behavior 10 2 [] ⟨0, 20⟩).1 (by norm_num),
          (C2_lockout_behavior 0 2 [.scored false (1/2)] ⟨2, 0⟩).2.1 (by norm_num) (by norm_num) (by decide),
          (C2_lockout_behavior 5 2 [] ⟨0, 0⟩).2.2 1 0 (1/3) [.scored true 1] ⟨2, 7⟩ (by norm_num)⟩

/-- Helper: if the loop ends unsuccessfully and the lockout deadline is
unchanged (so the lock branch was not taken), the returned confidence is the
literal `0.0` of the fall-through `return False, 0.0`. -/
theorem verifyLoop_exhausted_conf (now : ℚ) (fuel : ℕ) (ins : List Attempt)
    (st : AuthState) (caps : ℕ) (hnow : st.locked_until ≤ now)
    (hok : (verifyLoop now fuel ins st caps).ok = false)
    (hsame : (verifyLoop now fuel ins st caps).state.locked_until = st.locked_until) :
    (verifyLoop now fuel ins st caps).conf = 0 := by
  induction fuel generalizing ins st caps with
  | zero => simp only [verifyLoop]
  | succ n ih =>
    cases ins with
    | nil =>
      simp only [verifyLoop, List.headD_nil, List.tail_nil] at hok hsame ⊢
      exact ih _ _ _ hnow hok hsame
    | cons a rest =>
      cases a with
      | noSpeech =>
        simp only [verifyLoop, List.headD_cons, List.tail_cons] at hok hsame ⊢
        exact ih _ _ _ hnow hok hsame
      | scored ok conf =>
        cases ok with
        | true => simp [verifyLoop] at hok
        | false =>
          by_cases hf : max_auth_attempts ≤ st.failed_attempts + 1
          · simp only [verifyLoop, List.headD_cons, if_pos hf] at hsame
            linarith
          · simp only [verifyLoop, List.headD_cons, List.tail_cons, if_neg hf] at hok hsame ⊢
            exact ih _ _ _ hnow hok hsame

/-- C6 (amended): a `verify_live` call that is not locked at entry and ends
in failure without setting a lockout returns confidence `0.0` — the literal
of the source's final `return False, 0.0` — not the last confidence
observed. -/
theorem C6_exhausted_attempts_conf (now : ℚ) (m : ℕ) (ins : List Attempt)
    (st : AuthState) (hnl : st.locked_until ≤ now)
    (hok : (verify_live now m ins st).ok = false)
    (hsame : (verify_live now m ins st).state.locked_until = st.locked_until) :
    (verify_live now m ins st).conf = 0 := by
  have hnlt : ¬ now < st.locked_until := not_lt.mpr hnl
  simp only [verify_live, if_neg hnlt] at hok hsame ⊢
  exact verifyLoop_exhausted_conf now m ins st 0 hnl hok hsame

/-- C6 counterexample: two failed scoring attempts each with confidence 0.5
exhaust a budget of 2 without reaching the lockout limit; the call returns
confidence `0.0`, which differs from the last observed confidence `0.5`. -/
theorem C6_last_confidence_counterexample :
    verify_live 0 2 [.scored false (1/2), .scored false (1/2)] ⟨0, 0⟩
      = ⟨false, 0, ⟨2, 0⟩, 2⟩
    ∧ decide ((0 : ℚ) = 1/2) = false := by
  refine ⟨by decide, ?_⟩
  simp only [decide_eq_false_iff_not]
  norm_num

/-- Witness for the amended C6 on the same run: the exhausted call's
confidence is `0.0`. -/
theorem C6_exhausted_attempts_conf_witness :
    (verify_live 0 2 [.scored false (1/2), .scored false (1/2)] ⟨0, 0⟩).conf = 0 :=
  C6_exhausted_attempts_conf 0 2 [.scored false (1/2), .scored false (1/2)] ⟨0, 0⟩
    (by norm_num) (by decide) (by decide)

/-- Helper: `l.headD d` is `l.getD 0 d`. -/
theorem headD_eq_getD_zero {α : Type} (l : List α) (d : α) : l.headD d = l.getD 0 d := by
  cases l <;> rfl

/-- Helper: `l.tail.getD i d` is `l.getD (i+1) d`. -/
theorem tail_getD {α : Type} (l : List α) (i : ℕ) (d : α) :
    l.tail.getD i d = l.getD (i + 1) d := by
  cases l <;> rfl

/-- Helper: the re-enrollment PIN loop fails when every prompted entry
(defaulting to `""` past the end of the list) hashes differently from the
stored digest. -/
theorem reenrollPinLoop_all_wrong (H : String → String) (stored : String)
    (fuel : ℕ) (ins : List String)
    (h : ∀ i, i < fuel → H (ins.getD i "") ≠ stored) :
    reenrollPinLoop H (some stored) fuel ins = false := by
  induction fuel generalizing ins with
  | zero => rfl
  | succ n ih =>
    have h0 : H (ins.headD "") ≠ stored := by
      rw [headD_eq_getD_zero]
      exact h 0 (Nat.succ_pos n)
    simp only [reenrollPinLoop, pinMatches, decide_eq_true_eq, if_neg h0]
    refine ih _ fun i hi => ?_
    rw [tail_getD]
    exact h (i + 1) (by omega)

/-- Helper: a successful re-enrollment PIN loop exhibits a matching entry. -/
theorem reenrollPinLoop_success_match (H : String → String) (stored : String)
    (fuel : ℕ) (ins : List String)
    (h : reenrollPinLoop H (some stored) fuel ins = true) :
    ∃ i, i < fuel ∧ H (ins.getD i "") = stored := by
  induction fuel generalizing ins with
  | zero => simp [reenrollPinLoop] at h
  | succ n ih =>
    by_cases h0 : H (ins.headD "") = stored
    · refine ⟨0, Nat.succ_pos n, ?_⟩
      rw [← headD_eq_getD_zero]
      exact h0
    · simp only [reenrollPinLoop, pinMatches, decide_eq_true_eq, if_neg h0] at h
      obtain ⟨i, hi, hm⟩ := ih _ h
      rw [tail_getD] at hm
      exact ⟨i + 1, by omega, hm⟩

/-- Helper: with a stored digest of `None` the re-enrollment PIN loop never
succeeds (`str == None` is `False` in Python). -/
theorem reenrollPinLoop_none (H : String → String) (fuel : ℕ) (ins : List String) :
    reenrollPinLoop H none fuel ins = false := by
  induction fuel generalizing ins with
  | zero => rfl
  | succ n ih => simpa only [reenrollPinLoop, pinMatches, Bool.false_eq_true, if_neg] using ih ins.tail

/-- C7: the re-enrollment gate deletes the voice model and retained samples
only after a successful PIN verification — if the model artifact changed,
some one of the three prompted PINs hashed to the stored digest — and a run
in which all three attempts are wrong returns failure with the whole store
unchanged. -/
theorem C7_reenrollment_gate (H : String → String) (newPin : String)
    (ins : List String) (fs : FileStore) :
    (∀ stored, fs.pinFile = some (.parsed (some stored)) →
      (∀ i, i < 3 → H (ins.getD i "") ≠ stored) →
      verify_pin_for_re_enrollment H newPin ins fs = (false, fs))
    ∧ ((verify_pin_for_re_enrollment H newPin ins fs).2.modelFile ≠ fs.modelFile →
      ∃ stored, fs.pinFile = some (.parsed (some stored))
        ∧ ∃ i, i < 3 ∧ H (ins.getD i "") = stored) := by
  constructor
  · intro stored hpf hwrong
    have hloop := reenrollPinLoop_all_wrong H stored 3 ins hwrong
    simp [verify_pin_for_re_enrollment, hpf, max_auth_attempts, hloop]
  · intro hchanged
    rcases hpf : fs.pinFile with _ | pf
    · simp only [verify_pin_for_re_enrollment, hpf, setup_pin_backup] at hchanged
      exact absurd rfl hchanged
    · cases pf with
      | corrupt =>
        simp only [verify_pin_for_re_enrollment, hpf] at hchanged
        exact absurd rfl hchanged
      | parsed stored =>
        cases stored with
        | none =>
          simp [verify_pin_for_re_enrollment, hpf, max_auth_attempts,
            reenrollPinLoop_none] at hchanged
        | some hsh =>
          by_cases hloop : reenrollPinLoop H (some hsh) max_auth_attempts ins = true
          · exact ⟨hsh, rfl, reenrollPinLoop_success_match H hsh 3 ins hloop⟩
          · rw [Bool.not_eq_true] at hloop
            simp [verify_pin_for_re_enrollment, hpf, hloop] at hchanged

/-- Witness for C7: with stored digest `H0 "1234"`, three wrong entries
leave everything untouched, while the deletion case exhibits its matching
attempt. -/
theorem C7_reenrollment_gate_witness :
    verify_pin_for_re_enrollment H0 "77" ["1", "2", "3"]
        ⟨some ⟨true, "voice", none⟩, some (.parsed (some (H0 "1234"))), true⟩
      = (false, ⟨some ⟨true, "voice", none⟩, some (.parsed (some (H0 "1234"))), true⟩)
    ∧ (∃ stored,
        (⟨some ⟨true, "voice", none⟩, some (.parsed (some (H0 "1234"))), true⟩ : FileStore).pinFile
          = some (.parsed (some stored))
        ∧ ∃ i, i < 3 ∧ H0 (["1234"].getD i "") = stored) := by
  constructor
  · exact (C7_reenrollment_gate H0 "77" ["1", "2", "3"] _).1 (H0 "1234") rfl
      (by intro i hi; interval_cases i <;> simp [H0])
  · exact (C7_reenrollment_gate H0 "42" ["1234"] _).2 (by decide)

/-- C8: `emergency_pin_reset` succeeds exactly when at least `total − 1 = 2`
of the 3 security questions are answered correctly; success deletes the
model file, the PIN digest and the samples directory (the whole credential
bundle), and failure deletes nothing. -/
theorem C8_emergency_reset_threshold (answers : List String) (st : AuthState)
    (fs : FileStore) :
    ((emergency_pin_reset answers st fs).1 = true
        ↔ 2 ≤ gradeAnswers security_questions answers)
    ∧ ((emergency_pin_reset answers st fs).1 = true →
        (emergency_pin_reset answers st fs).2.2 = ⟨none, none, false⟩)
    ∧ ((emergency_pin_reset answers st fs).1 = false →
        (emergency_pin_reset answers st fs).2.2 = fs) := by
  by_cases h : 2 ≤ gradeAnswers security_questions answers
  · have h' : security_questions.length - 1 ≤ gradeAnswers security_questions answers := h
    simp [emergency_pin_reset, h', h]
  · have h' : ¬ security_questions.length - 1 ≤ gradeAnswers security_questions answers := h
    simp [emergency_pin_reset, h', h]

/-- Witness for C8: two correct answers (with spacing and capitalization
noise) wipe the bundle; a single correct answer changes nothing. -/
theorem C8_emergency_reset_threshold_witness :
    (emergency_pin_reset ["  Aurangabad ", "BROWNY", "nope"] ⟨1, 9⟩
        ⟨some ⟨true, "voice", none⟩, some (.parsed (some "h")), true⟩).2.2
      = ⟨none, none, false⟩
    ∧ (emergency_pin_reset ["aurangabad", "nope", "nope"] ⟨1, 9⟩
        ⟨some ⟨true, "voice", none⟩, some (.parsed (some "h")), true⟩).2.2
      = ⟨some ⟨true, "voice", none⟩, some (.parsed (some "h")), true⟩ := by
  constructor
  · exact (C8_emergency_reset_threshold _ _ _).2.1 (by decide)
  · exact (C8_emergency_reset_threshold _ _ _).2.2 (by decide)

/-- C5 counterexample: the artifact written for PIN "1234" stores exactly
the digest of the bare PIN — `H("1234")`, with no salt folded in — which
differs from a salted digest `H(salt ++ "1234")` (shown for salt `"s"` with
the injective stand-in digest `H0`): the source's
`hashlib.sha256(pin1.encode()).hexdigest()` is unsalted. -/
theorem C5_unsalted_counterexample :
    (setup_pin_backup H0 "1234" ⟨none, none, false⟩).pinFile
        = some (.parsed (some (H0 "1234")))
    ∧ decide (H0 "1234" = saltedDigest H0 "s" "1234") = false := by decide

/-- C5 (amended): every operation that persists the PIN stores only the
one-way (unsalted) digest of the PIN, never the plaintext, and the PIN
artifact is separate from the model artifact: writing the PIN file leaves
the model file and samples directory unchanged, saving the model leaves the
PIN file unchanged, and the model-deleting re-enrollment gate leaves the
PIN file unchanged whenever it exists. -/
theorem C5_pin_digest_storage (H : String → String) (pin auth_method : String)
    (is_trained : Bool) (pin_hash : Option String) (fs : FileStore) :
    (setup_pin_backup H pin fs).pinFile = some (.parsed (some (H pin)))
    ∧ (setup_pin_backup H pin fs).modelFile = fs.modelFile
    ∧ (setup_pin_backup H pin fs).samplesDir = fs.samplesDir
    ∧ (save_model is_trained auth_method pin_hash fs).2.pinFile = fs.pinFile
    ∧ (∀ newPin ins pf, fs.pinFile = some pf →
        (verify_pin_for_re_enrollment H newPin ins fs).2.pinFile = fs.pinFile) := by
  refine ⟨rfl, rfl, rfl, rfl, fun newPin ins pf hpf => ?_⟩
  cases pf with
  | corrupt => simp [verify_pin_for_re_enrollment, hpf]
  | parsed stored =>
    by_cases hloop : reenrollPinLoop H stored max_auth_attempts ins = true
    · simp [verify_pin_for_re_enrollment, hpf, hloop]
    · rw [Bool.not_eq_true] at hloop
      simp [verify_pin_for_re_enrollment, hpf, hloop]

/-- Witness for the amended C5: a concrete store whose PIN file survives a
model-deleting re-enrollment run untouched. -/
theorem C5_pin_digest_storage_witness :
    (verify_pin_for_re_enrollment H0 "99" ["1234"]
        ⟨some ⟨true, "voice", none⟩, some (.parsed (some (H0 "1234"))), true⟩).2.pinFile
      = (⟨some ⟨true, "voice", none⟩, some (.parsed (some (H0 "1234"))), true⟩ : FileStore).pinFile :=
  (C5_pin_digest_storage H0 "1234" "voice" true none _).2.2.2.2 "99" ["1234"]
    (.parsed (some (H0 "1234"))) rfl

/-- Helper: the PIN loop never changes the lockout deadline. -/
theorem pinLoop_locked_eq (H : String → String) (stored : Option String)
    (fuel : ℕ) (ins : List String) (st : AuthState) :
    (pinLoop H stored fuel ins st).2.locked_until = st.locked_until := by
  induction fuel generalizing ins st with
  | zero => rfl
  | succ n ih =>
    by_cases h : pinMatches H stored (ins.headD "") = true
    · simp only [pinLoop, if_pos h]
    · rw [Bool.not_eq_true] at h
      simp only [pinLoop, h, Bool.false_eq_true, if_false]
      exact ih ins.tail ⟨st.failed_attempts + 1, st.locked_until⟩

/-- Helper: a successful PIN loop exit has reset the failed counter. -/
theorem pinLoop_ok_resets (H : String → String) (stored : Option String)
    (fuel : ℕ) (ins : List String) (st : AuthState)
    (hok : (pinLoop H stored fuel ins st).1 = true) :
    (pinLoop H stored fuel ins st).2.failed_attempts = 0 := by
  induction fuel generalizing ins st with
  | zero => simp [pinLoop] at hok
  | succ n ih =>
    by_cases h : pinMatches H stored (ins.headD "") = true
    · simp only [pinLoop, if_pos h]
    · rw [Bool.not_eq_true] at h
      simp only [pinLoop, h, Bool.false_eq_true, if_false] at hok ⊢
      exact ih ins.tail _ hok

/-- Helper: a successful `verify_live` call resets the failed counter. -/
theorem verify_live_ok_resets (now : ℚ) (m : ℕ) (ins : List Attempt)
    (st : AuthState) (hok : (verify_live now m ins st).ok = true) :
    (verify_live now m ins st).state.failed_attempts = 0 := by
  by_cases h : now < st.locked_until
  · simp [verify_live, h] at hok
  · simp only [verify_live, if_neg h] at hok ⊢
    exact verifyLoop_ok_resets now m ins st 0 hok

/-- Helper: `verify_live` never lowers the lockout deadline. -/
theorem verify_live_locked_mono (now : ℚ) (m : ℕ) (ins : List Attempt)
    (st : AuthState) :
    st.locked_until ≤ (verify_live now m ins st).state.locked_until := by
  by_cases h : now < st.locked_until
  · simp [verify_live, h]
  · simp only [verify_live, if_neg h]
    exact verifyLoop_locked_mono now m ins st 0 (le_of_not_lt h)

/-- Helper: `enroll_user` either leaves the session state untouched, or its
session state is exactly that of its internal `verify_live` self-test, and
it reports success only when that self-test succeeded. -/
theorem enroll_user_session_effect (fit : ℕ → List FV → FV → ℚ)
    (H : String → String) (now : ℚ) (num_samples : ℕ) (recordings : List Capture)
    (verifyIns : List Attempt) (newPin auth_method : String)
    (pin_hash : Option String) (st : AuthState) (fs : FileStore) :
    ((enroll_user fit H now num_samples recordings verifyIns newPin auth_method pin_hash st fs).2.1 = st
      ∨ (enroll_user fit H now num_samples recordings verifyIns newPin auth_method pin_hash st fs).2.1
          = (verify_live now 2 verifyIns st).state)
    ∧ ((enroll_user fit H now num_samples recordings verifyIns newPin auth_method pin_hash st fs).1 = true →
        (enroll_user fit H now num_samples recordings verifyIns newPin auth_method pin_hash st fs).2.1
            = (verify_live now 2 verifyIns st).state
          ∧ (verify_live now 2 verifyIns st).ok = true) := by
  unfold enroll_user
  set collected := goodSamples (recordings.take (min num_samples phrases.length)) with hc
  by_cases hlen : collected.length < min_samples
  · simp [hlen]
  · simp only [hlen, Bool.false_eq_true, if_false]
    rcases htm : train_model fit collected with _ | ⟨k, success⟩
    · simp
    · cases success with
      | false => simp
      | true =>
        simp only [save_model]
        by_cases hv : (verify_live now 2 verifyIns st).ok = true
        · simp [hv]
        · rw [Bool.not_eq_true] at hv
          simp [hv]

/-- C9: every public operation preserves the two `AuthSession` invariants:
any authentication success resets `failed_attempts` to zero, and the lockout
deadline never decreases — `verify_live` and `authenticate_with_pin` only
ever extend it (`now + 300` / `now + 600` with the old deadline `≤ now`),
`enroll_user` touches it only through its internal self-test, and a
successful `emergency_pin_reset` leaves the session state entirely
unchanged (it deletes files without clearing an active lockout). -/
theorem C9_session_invariants (fit : ℕ → List FV → FV → ℚ) (H : String → String)
    (now : ℚ) (m num_samples : ℕ) (ins : List Attempt) (pins : List String)
    (stored pin_hash : Option String) (recordings : List Capture)
    (verifyIns : List Attempt) (newPin auth_method : String)
    (answers : List String) (st : AuthState) (fs : FileStore) :
    ((verify_live now m ins st).ok = true →
        (verify_live now m ins st).state.failed_attempts = 0)
    ∧ st.locked_until ≤ (verify_live now m ins st).state.locked_until
    ∧ ((authenticate_with_pin H now stored pins st).1 = true →
        (authenticate_with_pin H now stored pins st).2.failed_attempts = 0)
    ∧ st.locked_until ≤ (authenticate_with_pin H now stored pins st).2.locked_until
    ∧ ((enroll_user fit H now num_samples recordings verifyIns newPin auth_method pin_hash st fs).1 = true →
        (enroll_user fit H now num_samples recordings verifyIns newPin auth_method pin_hash st fs).2.1.failed_attempts = 0)
    ∧ st.locked_until ≤ (enroll_user fit H now num_samples recordings verifyIns newPin auth_method pin_hash st fs).2.1.locked_until
    ∧ (emergency_pin_reset answers st fs).2.1 = st := by
  refine ⟨verify_live_ok_resets now m ins st, verify_live_locked_mono now m ins st,
    ?_, ?_, ?_, ?_, ?_⟩
  · intro hok
    by_cases h : now < st.locked_until
    · simp [authenticate_with_pin, h] at hok
    · simp only [authenticate_with_pin, if_neg h] at hok ⊢
      rcases hp : pinLoop H stored max_auth_attempts pins st with ⟨b, st'⟩
      cases b with
      | true =>
        simp only [hp]
        have := pinLoop_ok_resets H stored max_auth_attempts pins st (by rw [hp])
        rwa [hp] at this
      | false => simp [hp] at hok
  · by_cases h : now < st.locked_until
    · simp [authenticate_with_pin, h]
    · simp only [authenticate_with_pin, if_neg h]
      have hl := pinLoop_locked_eq H stored max_auth_attempts pins st
      rcases hp : pinLoop H stored max_auth_attempts pins st with ⟨b, st'⟩
      rw [hp] at hl
      cases b with
      | true => simpa [hp] using le_of_eq hl.symm
      | false =>
        simp only [hp]
        have hnow := le_of_not_lt h
        linarith [le_of_eq hl.symm]
  · intro hok
    have h := (enroll_user_session_effect fit H now num_samples recordings
      verifyIns newPin auth_method pin_hash st fs).2 hok
    rw [h.1]
    exact verify_live_ok_resets now 2 verifyIns st h.2
  · rcases (enroll_user_session_effect fit H now num_samples recordings
      verifyIns newPin auth_method pin_hash st fs).1 with h | h
    · rw [h]
    · rw [h]
      exact verify_live_locked_mono now 2 verifyIns st
  · unfold emergency_pin_reset
    by_cases h : security_questions.length - 1 ≤ gradeAnswers security_questions answers
    · simp [h]
    · simp [h]

/-- Witness for C9 at concrete runs: a successful voice verification from 2
failures resets the counter and keeps the deadline; a correct PIN does the
same; a full successful enrollment (5 good samples, fitting scorer, passing
self-test) resets the counter; and an emergency reset leaves the session
state — including an active lockout deadline 5 — unchanged. -/
theorem C9_session_invariants_witness :
    (verify_live 0 2 [.scored true 1] ⟨2, 0⟩).state.failed_attempts = 0
    ∧ (0 : ℚ) ≤ (verify_live 0 2 [.scored true 1] ⟨2, 0⟩).state.locked_until
    ∧ (authenticate_with_pin H0 0 (some (H0 "1234")) ["1234"] ⟨2, 0⟩).2.failed_attempts = 0
    ∧ (0 : ℚ) ≤ (authenticate_with_pin H0 0 (some (H0 "1234")) ["1234"] ⟨2, 0⟩).2.locked_until
    ∧ (enroll_user constFit H0 0 8 (List.replicate 5 (.audio 8000 [0])) [.scored true 1]
        "1234" "voice" none ⟨1, 0⟩ ⟨none, none, false⟩).2.1.failed_attempts = 0
    ∧ (0 : ℚ) ≤ (enroll_user constFit H0 0 8 (List.replicate 5 (.audio 8000 [0])) [.scored true 1]
        "1234" "voice" none ⟨1, 0⟩ ⟨none, none, false⟩).2.1.locked_until
    ∧ (emergency_pin_reset ["aurangabad", "browny", "gudiya"] ⟨1, 5⟩ ⟨none, none, false⟩).2.1
        = ⟨1, 5⟩ := by
  have hen : enroll_user constFit H0 0 8 (List.replicate 5 (.audio 8000 [0])) [.scored true 1]
      "1234" "voice" none ⟨1, 0⟩ ⟨none, none, false⟩
      = (true, ⟨0, 0⟩, ⟨some ⟨true, "voice", none⟩, some (.parsed (some (H0 "1234"))), false⟩) := by
    norm_num [enroll_user, phrases, goodSamples, train_model, min_samples, constFit,
      verify_live, verifyLoop, save_model, setup_pin_backup]
    have h5 : List.countP (fun s : ℚ => decide ((-50 : ℚ) < s)) (List.replicate 5 (0 : ℚ)) = 5 := by
      decide
    have hacc : decide ((7 : ℚ)/10 <
        (↑(List.countP (fun s : ℚ => decide ((-50 : ℚ) < s)) (List.replicate 5 (0 : ℚ))) : ℚ) / 5)
        = true := by
      rw [decide_eq_true_eq, h5]
      norm_num
    rw [hacc]
  refine ⟨(C9_session_invariants constFit H0 0 2 8 [.scored true 1] ["1234"] (some (H0 "1234")) none
      (List.replicate 5 (.audio 8000 [0])) [.scored true 1] "1234" "voice"
      ["aurangabad", "browny", "gudiya"] ⟨2, 0⟩ ⟨none, none, false⟩).1 (by decide),
    (C9_session_invariants constFit H0 0 2 8 [.scored true 1] ["1234"] (some (H0 "1234")) none
      (List.replicate 5 (.audio 8000 [0])) [.scored true 1] "1234" "voice"
      ["aurangabad", "browny", "gudiya"] ⟨2, 0⟩ ⟨none, none, false⟩).2.1,
    (C9_session_invariants constFit H0 0 2 8 [.scored true 1] ["1234"] (some (H0 "1234")) none
      (List.replicate 5 (.audio 8000 [0])) [.scored true 1] "1234" "voice"
      ["aurangabad", "browny", "gudiya"] ⟨2, 0⟩ ⟨none, none, false⟩).2.2.1 (by decide),
    (C9_session_invariants constFit H0 0 2 8 [.scored true 1] ["1234"] (some (H0 "1234")) none
      (List.replicate 5 (.audio 8000 [0])) [.scored true 1] "1234" "voice"
      ["aurangabad", "browny", "gudiya"] ⟨2, 0⟩ ⟨none, none, false⟩).2.2.2.1,
    (C9_session_invariants constFit H0 0 2 8 [.scored true 1] ["1234"] (some (H0 "1234")) none
      (List.replicate 5 (.audio 8000 [0])) [.scored true 1] "1234" "voice"
      ["aurangabad", "browny", "gudiya"] ⟨1, 0⟩ ⟨none, none, false⟩).2.2.2.2.1 (by rw [hen]),
    (C9_session_invariants constFit H0 0 2 8 [.scored true 1] ["1234"] (some (H0 "1234")) none
      (List.replicate 5 (.audio 8000 [0])) [.scored true 1] "1234" "voice"
      ["aurangabad", "browny", "gudiya"] ⟨1, 0⟩ ⟨none, none, false⟩).2.2.2.2.2.1,
    (C9_session_invariants constFit H0 0 2 8 [.scored true 1] ["1234"] (some (H0 "1234")) none
      (List.replicate 5 (.audio 8000 [0])) [.scored true 1] "1234" "voice"
      ["aurangabad", "browny", "gudiya"] ⟨1, 5⟩ ⟨none, none, false⟩).2.2.2.2.2.2⟩

end LisaAuth
